import Mathlib

/-!
Verification of the real-time fan-out and cache-consistency subsystem of a
chat/community platform backend (Node.js + Redis + Socket.IO).

The development shallowly embeds the relevant source modules:

* the message controllers (`createMessage`, `updateMessage`, `deleteMessage`,
  `togglePinMessage`, `getChannelMessages`) and their cache-invalidation
  helper `invalidateMessageCache`;
* the login rate limiter (`createRateLimiter`, `recordAttempt`,
  `clearAttempts`);
* the Socket.IO gateway (`initSocket` authentication middleware, the room
  join/leave/broadcast handlers, the disconnect cleanup, and the module-level
  emit helpers `getIO` / `emitToUser` / `emitToServer` / `emitToChannel`).

The Redis store is modelled as an association list of key/value pairs (with a
timed variant carrying expiry for the rate counters), and Socket.IO room
membership as an association list from room key to member socket ids.
-/

set_option autoImplicit false

/-! ### The Shared Store (Redis) as a key/value association list -/

/-- Redis key/value state: an association list from keys to serialized
values.  At most one live entry per key is maintained by the operations. -/
abbrev Store := List (String × String)

/-- `GET key` — first binding of the key, if any. -/
def rget : Store → String → Option String
  | [], _ => none
  | (k, v) :: rest, key => if k = key then some v else rget rest key

/-- `DEL k1 k2 …` — remove every binding whose key occurs in `ks`. -/
def rdel : Store → List String → Store
  | [], _ => []
  | (k, v) :: rest, ks => if k ∈ ks then rdel rest ks else (k, v) :: rdel rest ks

/-- Does `pre` occur as a prefix of `s`?  Redis `KEYS pat*` glob matching for
the trailing-star patterns used by the cache layer is prefix matching. -/
def strHasPre (pre s : String) : Bool := pre.data.isPrefixOf s.data

/-- `KEYS pre*` — all keys in the store matching the prefix pattern. -/
def rkeysMatching (st : Store) (pre : String) : List String :=
  (st.map Prod.fst).filter (fun s => strHasPre pre s)

/-! ### Cache keys (`getCacheKey` in the message controller) -/

/-- `channel:{channelId}:messages:{page}:{limit}` -/
def cacheKeyChannelMessages (channelId page limit : String) : String :=
  "channel:" ++ channelId ++ ":messages:" ++ page ++ ":" ++ limit

/-- `message:{messageId}` -/
def cacheKeyMessage (messageId : String) : String := "message:" ++ messageId

/-- `channel:{channelId}:pinned` -/
def cacheKeyPinned (channelId : String) : String := "channel:" ++ channelId ++ ":pinned"

/-- The prefix pattern `channel:{channelId}:messages:` whose extensions are
enumerated by `invalidateMessageCache` via `KEYS channel:{id}:messages:*`. -/
def channelMessagesPre (channelId : String) : String :=
  "channel:" ++ channelId ++ ":messages:"

/-- The key list assembled by `invalidateMessageCache`: all cached pages of
the channel's message listing, the channel's pinned listing, and (when a
message id is supplied) the single-message cache entry. -/
def invalidateKeys (st : Store) (channelId : String) (messageId : Option String) : List String :=
  rkeysMatching st (channelMessagesPre channelId) ++
    cacheKeyPinned channelId ::
      (match messageId with
        | some m => [cacheKeyMessage m]
        | none => [])

/-- `invalidateMessageCache(channelId, messageId)` from the message
controller: enumerates `channel:{id}:messages:*`, appends the pinned key and
the optional `message:{id}` key, and deletes them all (the list is never
empty, so the `DEL` always runs). -/
def invalidateMessageCache (st : Store) (channelId : String) (messageId : Option String) : Store :=
  rdel st (invalidateKeys st channelId messageId)

/-! #### Store lemmas -/

theorem rget_rdel_of_mem (st : Store) (ks : List String) (k : String)
    (h : k ∈ ks) : rget (rdel st ks) k = none := by
  induction st with
  | nil => rfl
  | cons p rest ih =>
    obtain ⟨k1, v1⟩ := p
    by_cases hk : k1 ∈ ks
    · simp [rdel, hk, ih]
    · have hne : k1 ≠ k := fun he => hk (he ▸ h)
      simp [rdel, hk, rget, hne, ih]

theorem rget_rdel_of_not_mem (st : Store) (ks : List String) (k : String)
    (h : k ∉ ks) : rget (rdel st ks) k = rget st k := by
  induction st with
  | nil => rfl
  | cons p rest ih =>
    obtain ⟨k1, v1⟩ := p
    by_cases hk : k1 ∈ ks
    · have hne : k1 ≠ k := fun he => h (he ▸ hk)
      simp [rdel, hk, rget, hne, ih]
    · by_cases he : k1 = k
      · simp [rdel, hk, rget, he, h]
      · simp [rdel, hk, rget, he, ih]

theorem mem_rkeysMatching (st : Store) (pre k : String)
    (hget : rget st k ≠ none) (hpre : strHasPre pre k = true) :
    k ∈ rkeysMatching st pre := by
  induction st with
  | nil => exact absurd rfl hget
  | cons p rest ih =>
    obtain ⟨k1, v1⟩ := p
    by_cases he : k1 = k
    · subst he
      simp [rkeysMatching, List.mem_filter, hpre]
    · have : rget ((k1, v1) :: rest) k = rget rest k := by simp [rget, he]
      rw [this] at hget
      have hrec := ih hget
      simp only [rkeysMatching, List.mem_filter, List.map_cons, List.mem_cons] at hrec ⊢
      exact ⟨Or.inr hrec.1, hrec.2⟩

/-- Any key extending the `channel:{id}:messages:` prefix is a miss after
`invalidateMessageCache`. -/
theorem invalidate_misses_channel_keys (st : Store) (channelId : String)
    (messageId : Option String) (k : String)
    (hpre : strHasPre (channelMessagesPre channelId) k = true) :
    rget (invalidateMessageCache st channelId messageId) k = none := by
  unfold invalidateMessageCache
  cases hg : rget st k with
  | none =>
    by_cases hc : k ∈ invalidateKeys st channelId messageId
    · exact rget_rdel_of_mem _ _ _ hc
    · rw [rget_rdel_of_not_mem _ _ _ hc, hg]
  | some v =>
    have hmem : k ∈ rkeysMatching st (channelMessagesPre channelId) := by
      apply mem_rkeysMatching st _ k _ hpre
      rw [hg]
      exact fun h => Option.noConfusion h
    exact rget_rdel_of_mem _ _ _ (List.mem_append_left _ hmem)

/-- The pinned-messages key is a miss after `invalidateMessageCache`. -/
theorem invalidate_misses_pinned (st : Store) (channelId : String)
    (messageId : Option String) :
    rget (invalidateMessageCache st channelId messageId) (cacheKeyPinned channelId) = none := by
  apply rget_rdel_of_mem
  exact List.mem_append_right _ (List.mem_cons_self _ _)

/-- The single-message key is a miss after `invalidateMessageCache` when the
message id was supplied. -/
theorem invalidate_misses_message (st : Store) (channelId messageId : String) :
    rget (invalidateMessageCache st channelId (some messageId)) (cacheKeyMessage messageId) = none := by
  apply rget_rdel_of_mem
  apply List.mem_append_right
  simp

/-! ### The persistence layer (Mongo collections) as association lists -/

/-- `findById` / `findOne` on an association list keyed by ids. -/
def alookup {α β : Type} [DecidableEq α] : List (α × β) → α → Option β
  | [], _ => none
  | (k, v) :: rest, key => if k = key then some v else alookup rest key

/-- A message document (the fields the message controllers touch). -/
structure MsgDoc where
  author : String
  channel : String
  server : String
  content : String
  isPinned : Bool
  isEdited : Bool
deriving DecidableEq, Repr

/-- A channel document (the fields `checkChannelAccess` touches). -/
structure ChannelDoc where
  server : String
  isPrivate : Bool
  allowedRoles : List String
deriving DecidableEq, Repr

/-- A server-membership document (`ServerMemberModel`). -/
structure MemberDoc where
  role : String
  roles : List String
deriving DecidableEq, Repr

/-- The slice of the database the message controllers read and write.
`members` is keyed by `(serverId, userId)`. -/
structure Db where
  messages : List (String × MsgDoc)
  channels : List (String × ChannelDoc)
  members : List ((String × String) × MemberDoc)
deriving DecidableEq, Repr

/-- An `ApiError` thrown by `createApiError(status, message)`. -/
structure ApiErr where
  status : Nat
  msg : String
deriving DecidableEq, Repr

/-- `checkChannelAccess(channelId, userId)`: 404 when the channel is missing,
403 when the caller is not a member of the owning server, 403 when the
channel is private, the caller is neither owner nor admin, and none of the
channel's allowed roles is among the caller's roles. -/
def checkChannelAccess (db : Db) (channelId userId : String) :
    Except ApiErr (ChannelDoc × MemberDoc) :=
  match alookup db.channels channelId with
  | none => .error ⟨404, "Channel not found"⟩
  | some ch =>
    match alookup db.members (ch.server, userId) with
    | none => .error ⟨403, "You are not a member of this server"⟩
    | some mem =>
      if ch.isPrivate ∧ mem.role ∉ (["owner", "admin"] : List String) then
        if ch.allowedRoles ≠ [] ∧ ch.allowedRoles.all (fun r => r ∉ mem.roles) then
          .error ⟨403, "You do not have access to this private channel"⟩
        else .ok (ch, mem)
      else .ok (ch, mem)

/-! ### The message mutation controllers

Each controller is translated as: a pure guard phase (the reads and
permission checks that precede the durable write), then the effect phase
(durable write, cache invalidation, socket broadcast, HTTP response).  The
effect phase records a trace of effects, each paired with the cache-store
state at the moment the effect completes.  The `storeUp` flag models Shared
Store availability: when `false`, the `pubClient` calls inside
`invalidateMessageCache` reject, and the rejection propagates through
`asyncHandler` to the error-handler middleware (which answers 500 for errors
carrying no `statusCode`). -/

/-- An observable effect of a controller run. -/
inductive Eff where
  | dbWrite (id : String)
  | cacheDel (keys : List String)
  | emitCh (channelId event : String)
  | emitUser (userId event : String)
deriving DecidableEq, Repr

/-- The HTTP outcome the caller observes. -/
inductive HttpRes where
  | success (status : Nat) (msg : String)
  | failure (status : Nat) (msg : String)
deriving DecidableEq, Repr

/-- Result of a controller run: final database, final cache store, effect
trace (each effect paired with the store state when it completed), and the
HTTP response. -/
structure RunOut where
  db : Db
  store : Store
  trace : List (Eff × Store)
  res : HttpRes
deriving DecidableEq, Repr

/-- `invalidateMessageCache` under an available (`ok`) or unreachable
(`error`) Shared Store; the source has no try/catch around it. -/
def invalidateMessageCacheF (storeUp : Bool) (st : Store) (channelId : String)
    (messageId : Option String) : Except Unit Store :=
  if storeUp then .ok (invalidateMessageCache st channelId messageId) else .error ()

/-- The response produced by the `errorHandler` middleware for an error that
carries no `statusCode` (a raw Redis failure). -/
def internalErrorRes : HttpRes := .failure 500 "Something went wrong. Please try again later"

/-- Overwrite one message document (`message.save()` after field updates). -/
def setMessage (l : List (String × MsgDoc)) (mid : String) (m : MsgDoc) :
    List (String × MsgDoc) :=
  l.map (fun p => if p.1 = mid then (mid, m) else p)

/-- Guard phase of `updateMessage`: 404 when missing; the author may edit
their own message, otherwise channel access plus owner/admin role is
required. -/
def updateMessageGuard (db : Db) (uid mid : String) : Except ApiErr MsgDoc :=
  match alookup db.messages mid with
  | none => .error ⟨404, "Message not found"⟩
  | some msg =>
    if msg.author = uid then .ok msg
    else
      match checkChannelAccess db msg.channel uid with
      | .error e => .error e
      | .ok (_, mem) =>
        if mem.role ∈ (["owner", "admin"] : List String) then .ok msg
        else .error ⟨403, "You can only edit your own messages"⟩

/-- `updateMessage`: guard, save the edited content, invalidate
`message:{id}` and the channel's cached listings, then emit
`message:updated` to the channel room, then respond 200. -/
def updateMessage (storeUp : Bool) (db : Db) (st : Store) (uid mid content : String) : RunOut :=
  match updateMessageGuard db uid mid with
  | .error e => ⟨db, st, [], .failure e.status e.msg⟩
  | .ok msg =>
    let db2 := { db with messages := setMessage db.messages mid { msg with content := content, isEdited := true } }
    match invalidateMessageCacheF storeUp st msg.channel (some mid) with
    | .error _ => ⟨db2, st, [(.dbWrite mid, st)], internalErrorRes⟩
    | .ok st2 =>
      ⟨db2, st2,
        [(.dbWrite mid, st),
         (.cacheDel (invalidateKeys st msg.channel (some mid)), st2),
         (.emitCh msg.channel "message:updated", st2)],
        .success 200 "Message updated successfully"⟩

/-- `createMessage`: channel access check, create the message, invalidate the
channel's cached listings, emit `message:created` to the channel room and
`message:mentioned` to each mentioned user's personal room, respond 201. -/
def createMessage (storeUp : Bool) (db : Db) (st : Store)
    (uid channelId content : String) (mentions : List String) (newId : String) : RunOut :=
  match checkChannelAccess db channelId uid with
  | .error e => ⟨db, st, [], .failure e.status e.msg⟩
  | .ok (ch, _) =>
    let db2 := { db with messages := (newId, ⟨uid, channelId, ch.server, content, false, false⟩) :: db.messages }
    match invalidateMessageCacheF storeUp st channelId none with
    | .error _ => ⟨db2, st, [(.dbWrite newId, st)], internalErrorRes⟩
    | .ok st2 =>
      ⟨db2, st2,
        (Eff.dbWrite newId, st) ::
          (Eff.cacheDel (invalidateKeys st channelId none), st2) ::
            (Eff.emitCh channelId "message:created", st2) ::
              mentions.map (fun u => (Eff.emitUser u "message:mentioned", st2)),
        .success 201 "Message sent successfully"⟩

/-- Guard phase of `deleteMessage`: 404 when missing; the author may delete
their own message, otherwise owner/admin/moderator role is required. -/
def deleteMessageGuard (db : Db) (uid mid : String) : Except ApiErr MsgDoc :=
  match alookup db.messages mid with
  | none => .error ⟨404, "Message not found"⟩
  | some msg =>
    if msg.author = uid then .ok msg
    else
      match checkChannelAccess db msg.channel uid with
      | .error e => .error e
      | .ok (_, mem) =>
        if mem.role ∈ (["owner", "admin", "moderator"] : List String) then .ok msg
        else .error ⟨403, "You can only delete your own messages"⟩

/-- `deleteMessage`: guard, delete the document, invalidate, emit
`message:deleted` to the channel room, respond 200. -/
def deleteMessage (storeUp : Bool) (db : Db) (st : Store) (uid mid : String) : RunOut :=
  match deleteMessageGuard db uid mid with
  | .error e => ⟨db, st, [], .failure e.status e.msg⟩
  | .ok msg =>
    let db2 := { db with messages := db.messages.filter (fun p => p.1 ≠ mid) }
    match invalidateMessageCacheF storeUp st msg.channel (some mid) with
    | .error _ => ⟨db2, st, [(.dbWrite mid, st)], internalErrorRes⟩
    | .ok st2 =>
      ⟨db2, st2,
        [(.dbWrite mid, st),
         (.cacheDel (invalidateKeys st msg.channel (some mid)), st2),
         (.emitCh msg.channel "message:deleted", st2)],
        .success 200 "Message deleted successfully"⟩

/-- Guard phase of `togglePinMessage`: 404 when missing; channel access plus
owner/admin/moderator role is always required. -/
def togglePinGuard (db : Db) (uid mid : String) : Except ApiErr MsgDoc :=
  match alookup db.messages mid with
  | none => .error ⟨404, "Message not found"⟩
  | some msg =>
    match checkChannelAccess db msg.channel uid with
    | .error e => .error e
    | .ok (_, mem) =>
      if mem.role ∈ (["owner", "admin", "moderator"] : List String) then .ok msg
      else .error ⟨403, "Only admins and moderators can pin messages"⟩

/-- `togglePinMessage`: guard, flip `isPinned`, invalidate, emit
`message:pinned` to the channel room, respond 200. -/
def togglePinMessage (storeUp : Bool) (db : Db) (st : Store) (uid mid : String) : RunOut :=
  match togglePinGuard db uid mid with
  | .error e => ⟨db, st, [], .failure e.status e.msg⟩
  | .ok msg =>
    let msg2 := { msg with isPinned := !msg.isPinned }
    let db2 := { db with messages := setMessage db.messages mid msg2 }
    match invalidateMessageCacheF storeUp st msg.channel (some mid) with
    | .error _ => ⟨db2, st, [(.dbWrite mid, st)], internalErrorRes⟩
    | .ok st2 =>
      ⟨db2, st2,
        [(.dbWrite mid, st),
         (.cacheDel (invalidateKeys st msg.channel (some mid)), st2),
         (.emitCh msg.channel "message:pinned", st2)],
        .success 200
          (if msg2.isPinned then "Message pinned successfully" else "Message unpinned successfully")⟩

/-- The cache-read branch shared by `getChannelMessages`, `getMessage` and
`getPinnedMessages`: return the cached value on a hit, otherwise the value
freshly loaded from the persistence layer. -/
def cacheAsideRead (st : Store) (k : String) (loaded : String) : String :=
  match rget st k with
  | some cached => cached
  | none => loaded

/-! ### String-prefix facts about the cache key namespace -/

theorem strData_append (s t : String) : (s ++ t).data = s.data ++ t.data := rfl

theorem strEq_of_data (s t : String) (h : s.data = t.data) : s = t := by
  cases s
  cases t
  exact congrArg String.mk h

theorem listIsPrefixOfAppend (l m : List Char) : l.isPrefixOf (l ++ m) = true := by
  induction l with
  | nil => simp [List.isPrefixOf]
  | cons a rest ih => simp [List.isPrefixOf, ih]

theorem strHasPre_append (a b : String) : strHasPre a (a ++ b) = true := by
  unfold strHasPre
  rw [strData_append]
  exact listIsPrefixOfAppend _ _

theorem cacheKeyChannelMessages_extends_pre (c page limit : String) :
    strHasPre (channelMessagesPre c) (cacheKeyChannelMessages c page limit) = true := by
  have he : cacheKeyChannelMessages c page limit =
      channelMessagesPre c ++ (page ++ ":" ++ limit) := by
    apply strEq_of_data
    simp [cacheKeyChannelMessages, channelMessagesPre, strData_append]
  rw [he]
  exact strHasPre_append _ _

/-! ### Trace predicates for the invalidation-before-broadcast contract -/

/-- Is the effect the cache invalidation? -/
def isCacheDel : Eff → Bool
  | .cacheDel _ => true
  | _ => false

/-- The channel a channel-room broadcast targets, if the effect is one. -/
def chanEmit : Eff → Option String
  | .emitCh c _ => some c
  | _ => none

/-- Scanning the effect list in order: no channel-room broadcast occurs
before the first cache invalidation. -/
def noChanEmitBeforeDel : List Eff → Bool
  | [] => true
  | e :: rest =>
    if isCacheDel e then true
    else if (chanEmit e).isSome then false
    else noChanEmitBeforeDel rest

/-- At every channel-room broadcast in the trace, the cache store already
misses every cached page of that channel's message listing and the pinned
listing. -/
def invalidatedAtChanEmits (tr : List (Eff × Store)) : Prop :=
  ∀ p ∈ tr, ∀ c : String, chanEmit p.1 = some c →
    (∀ k : String, strHasPre (channelMessagesPre c) k = true → rget p.2 k = none) ∧
    rget p.2 (cacheKeyPinned c) = none

/-- At every channel-room broadcast in the trace, the cache store already
misses the single-message key of the mutated message. -/
def msgKeyGoneAtChanEmits (tr : List (Eff × Store)) (mid : String) : Prop :=
  ∀ p ∈ tr, (chanEmit p.1).isSome = true → rget p.2 (cacheKeyMessage mid) = none

theorem invAtEmits_nil : invalidatedAtChanEmits [] := by
  intro p hp
  exact absurd hp (List.not_mem_nil p)

theorem invAtEmits_shape (st : Store) (c : String) (mid? : Option String)
    (wid ev : String) (ks : List String) (tail : List (Eff × Store))
    (htail : ∀ p ∈ tail, chanEmit p.1 = none) :
    invalidatedAtChanEmits
      ((Eff.dbWrite wid, st) ::
        (Eff.cacheDel ks, invalidateMessageCache st c mid?) ::
          (Eff.emitCh c ev, invalidateMessageCache st c mid?) :: tail) := by
  intro p hp c0 hc
  simp only [List.mem_cons] at hp
  rcases hp with h | h | h | h
  · rw [h] at hc
    exact Option.noConfusion hc
  · rw [h] at hc
    exact Option.noConfusion hc
  · rw [h] at hc
    simp only [chanEmit, Option.some.injEq] at hc
    subst hc
    rw [h]
    exact ⟨fun k hk => invalidate_misses_channel_keys st c mid? k hk,
      invalidate_misses_pinned st c mid?⟩
  · rw [htail p h] at hc
    exact Option.noConfusion hc

theorem msgGone_shape (st : Store) (c wid ev mid : String) (ks : List String)
    (tail : List (Eff × Store)) (htail : ∀ p ∈ tail, chanEmit p.1 = none) :
    msgKeyGoneAtChanEmits
      ((Eff.dbWrite wid, st) ::
        (Eff.cacheDel ks, invalidateMessageCache st c (some mid)) ::
          (Eff.emitCh c ev, invalidateMessageCache st c (some mid)) :: tail) mid := by
  intro p hp hc
  simp only [List.mem_cons] at hp
  rcases hp with h | h | h | h
  · rw [h] at hc
    exact Bool.noConfusion hc
  · rw [h] at hc
    exact Bool.noConfusion hc
  · rw [h]
    exact invalidate_misses_message st c mid
  · rw [htail p h] at hc
    exact Bool.noConfusion hc

/-! #### Per-controller trace facts -/

theorem update_trace_props (storeUp : Bool) (db : Db) (st : Store) (uid mid content : String) :
    noChanEmitBeforeDel ((updateMessage storeUp db st uid mid content).trace.map Prod.fst) = true ∧
    invalidatedAtChanEmits (updateMessage storeUp db st uid mid content).trace ∧
    msgKeyGoneAtChanEmits (updateMessage storeUp db st uid mid content).trace mid := by
  unfold updateMessage
  cases hg : updateMessageGuard db uid mid with
  | error e =>
    refine ⟨rfl, invAtEmits_nil, ?_⟩
    intro p hp
    exact absurd hp (List.not_mem_nil p)
  | ok msg =>
    cases storeUp with
    | false =>
      simp only [invalidateMessageCacheF, Bool.false_eq_true, if_false]
      refine ⟨rfl, ?_, ?_⟩
      · intro p hp c0 hc
        simp only [List.mem_cons, List.not_mem_nil, or_false] at hp
        rw [hp] at hc
        exact Option.noConfusion hc
      · intro p hp hc
        simp only [List.mem_cons, List.not_mem_nil, or_false] at hp
        rw [hp] at hc
        exact Bool.noConfusion hc
    | true =>
      simp only [invalidateMessageCacheF, if_true]
      refine ⟨rfl, ?_, ?_⟩
      · exact invAtEmits_shape st msg.channel (some mid) mid "message:updated" _ []
          (fun p hp => absurd hp (List.not_mem_nil p))
      · exact msgGone_shape st msg.channel mid "message:updated" mid _ []
          (fun p hp => absurd hp (List.not_mem_nil p))

theorem create_trace_props (storeUp : Bool) (db : Db) (st : Store)
    (uid channelId content newId : String) (mentions : List String) :
    noChanEmitBeforeDel
      ((createMessage storeUp db st uid channelId content mentions newId).trace.map Prod.fst) = true ∧
    invalidatedAtChanEmits (createMessage storeUp db st uid channelId content mentions newId).trace := by
  unfold createMessage
  cases hg : checkChannelAccess db channelId uid with
  | error e => exact ⟨rfl, invAtEmits_nil⟩
  | ok chmem =>
    cases storeUp with
    | false =>
      simp only [invalidateMessageCacheF, Bool.false_eq_true, if_false]
      refine ⟨rfl, ?_⟩
      intro p hp c0 hc
      simp only [List.mem_cons, List.not_mem_nil, or_false] at hp
      rw [hp] at hc
      exact Option.noConfusion hc
    | true =>
      simp only [invalidateMessageCacheF, if_true]
      have htail : ∀ p ∈ mentions.map
          (fun u => ((Eff.emitUser u "message:mentioned" : Eff),
            invalidateMessageCache st channelId none)), chanEmit p.1 = none := by
        intro p hp
        simp only [List.mem_map] at hp
        obtain ⟨u, _, he⟩ := hp
        rw [← he]
        rfl
      refine ⟨?_, ?_⟩
      · rfl
      · exact invAtEmits_shape st channelId none newId "message:created" _ _ htail

theorem delete_trace_props (storeUp : Bool) (db : Db) (st : Store) (uid mid : String) :
    noChanEmitBeforeDel ((deleteMessage storeUp db st uid mid).trace.map Prod.fst) = true ∧
    invalidatedAtChanEmits (deleteMessage storeUp db st uid mid).trace ∧
    msgKeyGoneAtChanEmits (deleteMessage storeUp db st uid mid).trace mid := by
  unfold deleteMessage
  cases hg : deleteMessageGuard db uid mid with
  | error e =>
    refine ⟨rfl, invAtEmits_nil, ?_⟩
    intro p hp
    exact absurd hp (List.not_mem_nil p)
  | ok msg =>
    cases storeUp with
    | false =>
      simp only [invalidateMessageCacheF, Bool.false_eq_true, if_false]
      refine ⟨rfl, ?_, ?_⟩
      · intro p hp c0 hc
        simp only [List.mem_cons, List.not_mem_nil, or_false] at hp
        rw [hp] at hc
        exact Option.noConfusion hc
      · intro p hp hc
        simp only [List.mem_cons, List.not_mem_nil, or_false] at hp
        rw [hp] at hc
        exact Bool.noConfusion hc
    | true =>
      simp only [invalidateMessageCacheF, if_true]
      refine ⟨rfl, ?_, ?_⟩
      · exact invAtEmits_shape st msg.channel (some mid) mid "message:deleted" _ []
          (fun p hp => absurd hp (List.not_mem_nil p))
      · exact msgGone_shape st msg.channel mid "message:deleted" mid _ []
          (fun p hp => absurd hp (List.not_mem_nil p))

theorem pin_trace_props (storeUp : Bool) (db : Db) (st : Store) (uid mid : String) :
    noChanEmitBeforeDel ((togglePinMessage storeUp db st uid mid).trace.map Prod.fst) = true ∧
    invalidatedAtChanEmits (togglePinMessage storeUp db st uid mid).trace ∧
    msgKeyGoneAtChanEmits (togglePinMessage storeUp db st uid mid).trace mid := by
  unfold togglePinMessage
  cases hg : togglePinGuard db uid mid with
  | error e =>
    refine ⟨rfl, invAtEmits_nil, ?_⟩
    intro p hp
    exact absurd hp (List.not_mem_nil p)
  | ok msg =>
    cases storeUp with
    | false =>
      simp only [invalidateMessageCacheF, Bool.false_eq_true, if_false]
      refine ⟨rfl, ?_, ?_⟩
      · intro p hp c0 hc
        simp only [List.mem_cons, List.not_mem_nil, or_false] at hp
        rw [hp] at hc
        exact Option.noConfusion hc
      · intro p hp hc
        simp only [List.mem_cons, List.not_mem_nil, or_false] at hp
        rw [hp] at hc
        exact Bool.noConfusion hc
    | true =>
      simp only [invalidateMessageCacheF, if_true]
      refine ⟨rfl, ?_, ?_⟩
      · exact invAtEmits_shape st msg.channel (some mid) mid "message:pinned" _ []
          (fun p hp => absurd hp (List.not_mem_nil p))
      · exact msgGone_shape st msg.channel mid "message:pinned" mid _ []
          (fun p hp => absurd hp (List.not_mem_nil p))

/-! ### Concrete fixtures used by witnesses and counterexamples -/

/-- A message authored by `u1` in channel `c1` of server `s1`. -/
def msg0 : MsgDoc := ⟨"u1", "c1", "s1", "old", false, false⟩

/-- A public channel in server `s1`. -/
def ch0 : ChannelDoc := ⟨"s1", false, []⟩

/-- `u1` is the owner of server `s1`. -/
def mem0 : MemberDoc := ⟨"owner", []⟩

/-- One message, one channel, one membership. -/
def db0 : Db := ⟨[("m1", msg0)], [("c1", ch0)], [(("s1", "u1"), mem0)]⟩

/-- A cache holding the pre-edit message and one cached listing page. -/
def st0 : Store :=
  [(cacheKeyMessage "m1", "old-cached"), (cacheKeyChannelMessages "c1" "1" "50", "old-page")]

/-! ### C1 -/

/-- C1: after `updateMessage`'s call to `invalidateMessageCache` returns, the
key `message:{m}` and every key matching `channel:{c}:messages:*` (any
page/limit) are cache misses, so a cache-aside read issued after the
mutation returns the freshly loaded value, never the pre-edit cached one. -/
theorem update_invalidates_message_and_channel_keys
    (db : Db) (st : Store) (uid mid content : String) (msg : MsgDoc)
    (hg : updateMessageGuard db uid mid = Except.ok msg) :
    rget (updateMessage true db st uid mid content).store (cacheKeyMessage mid) = none ∧
    (∀ k : String, strHasPre (channelMessagesPre msg.channel) k = true →
      rget (updateMessage true db st uid mid content).store k = none) ∧
    (∀ page limit loaded : String,
      cacheAsideRead (updateMessage true db st uid mid content).store
        (cacheKeyChannelMessages msg.channel page limit) loaded = loaded) ∧
    (∀ loaded : String,
      cacheAsideRead (updateMessage true db st uid mid content).store
        (cacheKeyMessage mid) loaded = loaded) := by
  have hst : (updateMessage true db st uid mid content).store =
      invalidateMessageCache st msg.channel (some mid) := by
    unfold updateMessage
    rw [hg]
    rfl
  rw [hst]
  refine ⟨invalidate_misses_message st msg.channel mid,
    fun k hk => invalidate_misses_channel_keys st msg.channel (some mid) k hk, ?_, ?_⟩
  · intro page limit loaded
    unfold cacheAsideRead
    rw [invalidate_misses_channel_keys st msg.channel (some mid) _
      (cacheKeyChannelMessages_extends_pre msg.channel page limit)]
  · intro loaded
    unfold cacheAsideRead
    rw [invalidate_misses_message st msg.channel mid]

/-- C1 witness: the concrete edit of `m1` by its author empties both cache
key families and the subsequent read serves the fresh load. -/
theorem update_invalidates_message_and_channel_keys_witness :
    updateMessageGuard db0 "u1" "m1" = Except.ok msg0 ∧
    rget (updateMessage true db0 st0 "u1" "m1" "new").store (cacheKeyMessage "m1") = none ∧
    cacheAsideRead (updateMessage true db0 st0 "u1" "m1" "new").store
      (cacheKeyChannelMessages "c1" "1" "50") "fresh-load" = "fresh-load" := by
  have hg : updateMessageGuard db0 "u1" "m1" = Except.ok msg0 := by rfl
  exact ⟨hg,
    (update_invalidates_message_and_channel_keys db0 st0 "u1" "m1" "new" msg0 hg).1,
    (update_invalidates_message_and_channel_keys db0 st0 "u1" "m1" "new" msg0 hg).2.2.1
      "1" "50" "fresh-load"⟩

/-! ### C2 -/

/-- C2: for every run of the four message-mutation controllers (create,
update, delete, pin-toggle), no channel-room broadcast occurs before the
cache invalidation in the effect trace, and at every channel-room broadcast
the cache store already misses all affected keys (every
`channel:{c}:messages:*` page, `channel:{c}:pinned`, and for the
message-targeted mutations also `message:{m}`). -/
theorem invalidation_completes_before_broadcast
    (storeUp : Bool) (db : Db) (st : Store)
    (uid channelId content mid newId : String) (mentions : List String) :
    (noChanEmitBeforeDel
        ((createMessage storeUp db st uid channelId content mentions newId).trace.map Prod.fst) = true ∧
      invalidatedAtChanEmits (createMessage storeUp db st uid channelId content mentions newId).trace) ∧
    (noChanEmitBeforeDel ((updateMessage storeUp db st uid mid content).trace.map Prod.fst) = true ∧
      invalidatedAtChanEmits (updateMessage storeUp db st uid mid content).trace ∧
      msgKeyGoneAtChanEmits (updateMessage storeUp db st uid mid content).trace mid) ∧
    (noChanEmitBeforeDel ((deleteMessage storeUp db st uid mid).trace.map Prod.fst) = true ∧
      invalidatedAtChanEmits (deleteMessage storeUp db st uid mid).trace ∧
      msgKeyGoneAtChanEmits (deleteMessage storeUp db st uid mid).trace mid) ∧
    (noChanEmitBeforeDel ((togglePinMessage storeUp db st uid mid).trace.map Prod.fst) = true ∧
      invalidatedAtChanEmits (togglePinMessage storeUp db st uid mid).trace ∧
      msgKeyGoneAtChanEmits (togglePinMessage storeUp db st uid mid).trace mid) :=
  ⟨create_trace_props storeUp db st uid channelId content newId mentions,
    update_trace_props storeUp db st uid mid content,
    delete_trace_props storeUp db st uid mid,
    pin_trace_props storeUp db st uid mid⟩

/-! ### C3 -/

/-- C3 counterexample: with the Shared Store down during invalidation, the
edit of `m1` durably commits (the stored document carries the new content
and `isEdited`), yet the caller receives the error-handler's 500 response,
not the success response — the store error is not swallowed. -/
theorem invalidation_failure_not_swallowed_counterexample :
    (updateMessage false db0 st0 "u1" "m1" "edited").res =
      HttpRes.failure 500 "Something went wrong. Please try again later" ∧
    (updateMessage false db0 st0 "u1" "m1" "edited").res ≠
      HttpRes.success 200 "Message updated successfully" ∧
    alookup (updateMessage false db0 st0 "u1" "m1" "edited").db.messages "m1" =
      some ⟨"u1", "c1", "s1", "edited", false, true⟩ := by
  decide

/-- C3 amended: when the durable write of a message mutation succeeds but the
subsequent cache invalidation raises a Shared Store error, the error
propagates through `asyncHandler` to the error-handler middleware: the
caller receives the 500 error response even though the write committed; the
store error is not logged-and-swallowed. -/
theorem invalidation_failure_propagates_to_caller :
    (∀ (db : Db) (st : Store) (uid mid content : String) (msg : MsgDoc),
      updateMessageGuard db uid mid = Except.ok msg →
        (updateMessage false db st uid mid content).res = internalErrorRes ∧
        (updateMessage false db st uid mid content).db.messages =
          setMessage db.messages mid { msg with content := content, isEdited := true }) ∧
    (∀ (db : Db) (st : Store) (uid channelId content newId : String)
        (mentions : List String) (ch : ChannelDoc) (mem : MemberDoc),
      checkChannelAccess db channelId uid = Except.ok (ch, mem) →
        (createMessage false db st uid channelId content mentions newId).res = internalErrorRes ∧
        (createMessage false db st uid channelId content mentions newId).db.messages =
          (newId, ⟨uid, channelId, ch.server, content, false, false⟩) :: db.messages) ∧
    (∀ (db : Db) (st : Store) (uid mid : String) (msg : MsgDoc),
      deleteMessageGuard db uid mid = Except.ok msg →
        (deleteMessage false db st uid mid).res = internalErrorRes ∧
        (deleteMessage false db st uid mid).db.messages =
          db.messages.filter (fun p => p.1 ≠ mid)) ∧
    (∀ (db : Db) (st : Store) (uid mid : String) (msg : MsgDoc),
      togglePinGuard db uid mid = Except.ok msg →
        (togglePinMessage false db st uid mid).res = internalErrorRes ∧
        (togglePinMessage false db st uid mid).db.messages =
          setMessage db.messages mid { msg with isPinned := !msg.isPinned }) := by
  refine ⟨?_, ?_, ?_, ?_⟩
  · intro db st uid mid content msg hg
    unfold updateMessage
    rw [hg]
    exact ⟨rfl, rfl⟩
  · intro db st uid channelId content newId mentions ch mem hacc
    unfold createMessage
    rw [hacc]
    exact ⟨rfl, rfl⟩
  · intro db st uid mid msg hg
    unfold deleteMessage
    rw [hg]
    exact ⟨rfl, rfl⟩
  · intro db st uid mid msg hg
    unfold togglePinMessage
    rw [hg]
    exact ⟨rfl, rfl⟩

/-- C3 amended witness: all four mutations at the concrete fixture, with the
Shared Store down during invalidation. -/
theorem invalidation_failure_propagates_to_caller_witness :
    (updateMessage false db0 st0 "u1" "m1" "edited").res = internalErrorRes ∧
    (createMessage false db0 st0 "u1" "c1" "hello" [] "m9").res = internalErrorRes ∧
    (deleteMessage false db0 st0 "u1" "m1").res = internalErrorRes ∧
    (togglePinMessage false db0 st0 "u1" "m1").res = internalErrorRes :=
  ⟨(invalidation_failure_propagates_to_caller.1 db0 st0 "u1" "m1" "edited" msg0 (by rfl)).1,
    (invalidation_failure_propagates_to_caller.2.1 db0 st0 "u1" "c1" "hello" "m9" [] ch0 mem0 (by rfl)).1,
    (invalidation_failure_propagates_to_caller.2.2.1 db0 st0 "u1" "m1" msg0 (by rfl)).1,
    (invalidation_failure_propagates_to_caller.2.2.2 db0 st0 "u1" "m1" msg0 (by rfl)).1⟩

/-! ### The Rate Guard (rate-limit middleware) over a timed Shared Store -/

/-- Timed Redis counter state: key, counter value, expiry instant
(`none` = no TTL).  At most one entry per key is maintained. -/
abbrev TStore := List (String × Nat × Option Nat)

/-- Is an entry still live at `now`?  (Redis expires a key once `now`
reaches its expiry instant.) -/
def tlive (now : Nat) (e : Nat × Option Nat) : Bool :=
  match e.2 with
  | none => true
  | some t => now < t

/-- Find the live entry for a key, treating an expired entry as absent. -/
def tfind : TStore → Nat → String → Option (Nat × Option Nat)
  | [], _, _ => none
  | (k1, e) :: rest, now, k =>
    if k1 = k then (if tlive now e then some e else none) else tfind rest now k

/-- `GET key` on a counter key: the live counter value. -/
def tget (s : TStore) (now : Nat) (k : String) : Option Nat :=
  (tfind s now k).map Prod.fst

/-- Drop every entry for a key (`DEL key`). -/
def tremove : TStore → String → TStore
  | [], _ => []
  | (k1, e) :: rest, k => if k1 = k then tremove rest k else (k1, e) :: tremove rest k

/-- `SETEX key window "1"` — fresh counter 1 expiring `window` from now. -/
def tsetex (s : TStore) (now : Nat) (k : String) (window : Nat) : TStore :=
  (k, 1, some (now + window)) :: tremove s k

/-- `INCR key` — bump a live counter keeping its TTL; on an absent key Redis
creates value 1 with no TTL. -/
def tincr (s : TStore) (now : Nat) (k : String) : TStore :=
  match tfind s now k with
  | some (c, e) => (k, c + 1, e) :: tremove s k
  | none => (k, 1, none) :: tremove s k

/-- `TTL key` — Redis semantics: -2 when absent, -1 when no TTL, otherwise
the remaining seconds. -/
def tttl (s : TStore) (now : Nat) (k : String) : Int :=
  match tfind s now k with
  | none => -2
  | some (_, none) => -1
  | some (_, some t) => (t : Int) - (now : Int)

/-- `recordAttempt(prefix, ip, windowSeconds)`: `INCR` when the counter
exists, else `SETEX` a fresh one. -/
def recordAttempt (s : TStore) (now : Nat) (k : String) (windowSeconds : Nat) : TStore :=
  match tget s now k with
  | some _ => tincr s now k
  | none => tsetex s now k windowSeconds

/-- `clearAttempts(prefix, ip)`: delete the counter outright. -/
def clearAttempts (s : TStore) (k : String) : TStore := tremove s k

/-- The outcome of the rate-limit middleware: pass the request on to the
handler, or reject it with a status and the `retryAfter` detail. -/
inductive MwOutcome where
  | proceed
  | reject (status : Nat) (retryAfter : Int)
deriving DecidableEq, Repr

/-- The check inside `createRateLimiter(prefix, maxAttempts, windowSeconds)`:
read the counter, reject with 429 and `retryAfter = TTL` once
`currentAttempts >= maxAttempts`, else call `next()`.  When the Shared
Store is down (`storeUp = false`) the `GET` rejects; the catch block sees
an error without a `statusCode`, logs it, and calls `next()` — fail-open. -/
def createRateLimiterRun (storeUp : Bool) (s : TStore) (now : Nat)
    (k : String) (maxAttempts : Nat) : MwOutcome :=
  if storeUp then
    let attempts := tget s now k
    let currentAttempts := attempts.getD 0
    if maxAttempts ≤ currentAttempts then MwOutcome.reject 429 (tttl s now k)
    else MwOutcome.proceed
  else MwOutcome.proceed

/-- The Redis key of the login counter for one client. -/
def loginAttemptsKey (ip : String) : String := "login_attempts:" ++ ip

/-- `loginRateLimit` — `createRateLimiter("login_attempts", 5, 900, …)`. -/
def loginRateLimitCheck (storeUp : Bool) (s : TStore) (now : Nat) (ip : String) : MwOutcome :=
  createRateLimiterRun storeUp s now (loginAttemptsKey ip) 5

/-- `recordLoginAttempt(ip)` — window 900 seconds. -/
def recordLoginAttempt (s : TStore) (now : Nat) (ip : String) : TStore :=
  recordAttempt s now (loginAttemptsKey ip) 900

/-- `clearLoginAttempts(ip)`. -/
def clearLoginAttempts (s : TStore) (ip : String) : TStore :=
  clearAttempts s (loginAttemptsKey ip)

/-! #### Timed-store lemmas -/

theorem tfind_tremove (s : TStore) (k : String) (now : Nat) :
    tfind (tremove s k) now k = none := by
  induction s with
  | nil => rfl
  | cons p rest ih =>
    obtain ⟨k1, e1⟩ := p
    by_cases he : k1 = k
    · simp [tremove, he, ih]
    · simp [tremove, he, tfind, ih]

theorem tfind_head (k : String) (c : Nat) (T : Nat) (rest : TStore) (now : Nat)
    (hlt : now < T) :
    tfind ((k, c, some T) :: rest) now k = some (c, some T) := by
  simp [tfind, tlive, hlt]

theorem recordAttempt_fresh (s : TStore) (now : Nat) (k : String) (w : Nat)
    (h : tfind s now k = none) :
    recordAttempt s now k w = (k, 1, some (now + w)) :: tremove s k := by
  have hg : tget s now k = none := by
    unfold tget
    rw [h]
    rfl
  unfold recordAttempt
  rw [hg]
  rfl

theorem recordAttempt_bump (rest : TStore) (k : String) (c T now : Nat)
    (hlt : now < T) :
    recordAttempt ((k, c, some T) :: rest) now k 900 =
      (k, c + 1, some T) :: tremove ((k, c, some T) :: rest) k := by
  have hf := tfind_head k c T rest now hlt
  have hg : tget ((k, c, some T) :: rest) now k = some c := by
    unfold tget
    rw [hf]
    rfl
  unfold recordAttempt
  rw [hg]
  unfold tincr
  rw [hf]

/-! ### C5 -/

/-- C5: with window 900 and threshold 5, after the 6th `recordLoginAttempt`
for an actor within the window opened by the first attempt, the next
`loginRateLimit` check rejects with a 429 whose `retryAfter` is the
counter's remaining TTL, strictly positive and at most 900; and a
`clearLoginAttempts` at any point deletes the counter so the next check
proceeds. -/
theorem login_rate_guard_blocks_sixth_within_window
    (s0 : TStore) (ip : String) (t1 t2 t3 t4 t5 t6 tc : Nat)
    (h0 : tfind s0 t1 (loginAttemptsKey ip) = none)
    (h12 : t1 ≤ t2) (h23 : t2 ≤ t3) (h34 : t3 ≤ t4) (h45 : t4 ≤ t5) (h56 : t5 ≤ t6)
    (h6c : t6 ≤ tc) (hc : tc < t1 + 900) :
    loginRateLimitCheck true
        (recordLoginAttempt (recordLoginAttempt (recordLoginAttempt (recordLoginAttempt
          (recordLoginAttempt (recordLoginAttempt s0 t1 ip) t2 ip) t3 ip) t4 ip) t5 ip) t6 ip)
        tc ip =
      MwOutcome.reject 429 (((t1 + 900 : Nat) : Int) - (tc : Int)) ∧
    0 < (((t1 + 900 : Nat) : Int) - (tc : Int)) ∧
    (((t1 + 900 : Nat) : Int) - (tc : Int)) ≤ 900 ∧
    (∀ (s : TStore) (now : Nat),
      loginRateLimitCheck true (clearLoginAttempts s ip) now ip = MwOutcome.proceed) := by
  have step : ∀ (rest : TStore) (c now : Nat), now < t1 + 900 →
      recordLoginAttempt ((loginAttemptsKey ip, c, some (t1 + 900)) :: rest) now ip =
        (loginAttemptsKey ip, c + 1, some (t1 + 900)) ::
          tremove ((loginAttemptsKey ip, c, some (t1 + 900)) :: rest) (loginAttemptsKey ip) :=
    fun rest c now hnow => recordAttempt_bump rest (loginAttemptsKey ip) c (t1 + 900) now hnow
  have e1 : recordLoginAttempt s0 t1 ip =
      (loginAttemptsKey ip, 1, some (t1 + 900)) :: tremove s0 (loginAttemptsKey ip) :=
    recordAttempt_fresh s0 t1 (loginAttemptsKey ip) 900 h0
  refine ⟨?_, by omega, by omega, ?_⟩
  · have final : ∀ rest : TStore,
        loginRateLimitCheck true ((loginAttemptsKey ip, 6, some (t1 + 900)) :: rest) tc ip =
          MwOutcome.reject 429 (((t1 + 900 : Nat) : Int) - (tc : Int)) := by
      intro rest
      have hf := tfind_head (loginAttemptsKey ip) 6 (t1 + 900) rest tc hc
      unfold loginRateLimitCheck createRateLimiterRun tget tttl
      rw [hf]
      norm_num
    rw [e1, step _ 1 t2 (by omega), step _ 2 t3 (by omega), step _ 3 t4 (by omega),
      step _ 4 t5 (by omega), step _ 5 t6 (by omega)]
    exact final _
  · intro s now
    have hf : tfind (clearLoginAttempts s ip) now (loginAttemptsKey ip) = none :=
      tfind_tremove s (loginAttemptsKey ip) now
    unfold loginRateLimitCheck createRateLimiterRun tget
    rw [hf]
    norm_num

/-- C5 witness: actor `1.2.3.4` fails at seconds 0..5; the check at second
10 rejects with `retryAfter` 890, and after a clear the check proceeds. -/
theorem login_rate_guard_blocks_sixth_within_window_witness :
    tfind ([] : TStore) 0 (loginAttemptsKey "1.2.3.4") = none ∧
    loginRateLimitCheck true
        (recordLoginAttempt (recordLoginAttempt (recordLoginAttempt (recordLoginAttempt
          (recordLoginAttempt (recordLoginAttempt ([] : TStore) 0 "1.2.3.4") 1 "1.2.3.4")
            2 "1.2.3.4") 3 "1.2.3.4") 4 "1.2.3.4") 5 "1.2.3.4")
        10 "1.2.3.4" = MwOutcome.reject 429 890 ∧
    loginRateLimitCheck true (clearLoginAttempts ([] : TStore) "1.2.3.4") 7 "1.2.3.4" =
      MwOutcome.proceed := by
  have h0 : tfind ([] : TStore) 0 (loginAttemptsKey "1.2.3.4") = none := rfl
  have T := login_rate_guard_blocks_sixth_within_window [] "1.2.3.4" 0 1 2 3 4 5 10 h0
    (by omega) (by omega) (by omega) (by omega) (by omega) (by omega) (by omega)
  refine ⟨h0, ?_, T.2.2.2 [] 7⟩
  have h1 := T.1
  norm_num at h1
  exact h1

/-! ### C6 -/

/-- C6: when the Shared Store operation inside the rate-guard check raises
(store unreachable), the middleware catches the error and calls `next()`,
so the attempt is allowed for every actor and every limiter instance —
fail-open, never a surfaced failure. -/
theorem rate_guard_fails_open (s : TStore) (now : Nat) (k : String)
    (maxAttempts : Nat) (ip : String) :
    createRateLimiterRun false s now k maxAttempts = MwOutcome.proceed ∧
    loginRateLimitCheck false s now ip = MwOutcome.proceed :=
  ⟨rfl, rfl⟩

/-! ### The Connection Gatekeeper (initSocket auth middleware) -/

/-- `verifyToken`: `jwt.verify` modelled as a table of tokens with a valid
signature that are not yet expired, mapped to the user id they encode;
everything else decodes to `null`. -/
def verifyToken (validTokens : List (String × String)) (token : String) : Option String :=
  alookup validTokens token

/-- `blacklistToken(token, ttl)` from the Redis utils: `SETEX
blacklist:{token} ttl "true"` (logout writes it). -/
def blacklistToken (st : Store) (token : String) : Store :=
  ("blacklist:" ++ token, "true") :: st

/-- `isTokenBlacklisted(token)`: `GET blacklist:{token}` equals `"true"`. -/
def isTokenBlacklisted (st : Store) (token : String) : Bool :=
  rget st ("blacklist:" ++ token) == some "true"

/-- Outcome of the Socket.IO connection-authentication middleware. -/
inductive SocketAuthResult where
  | session (userId : String)
  | authError (msg : String)
deriving DecidableEq, Repr

/-- The `io.use` middleware of `initSocket`: take the handshake token,
reject when absent; `verifyToken`; a `null` decode makes the
`decoded.userId` access throw, caught as "Invalid token"; load the user and
reject unknown ids; otherwise attach the user and accept.  The middleware
never consults the blacklist. -/
def socketAuthMiddleware (validTokens : List (String × String)) (users : List String)
    (handshakeToken : Option String) : SocketAuthResult :=
  match handshakeToken with
  | none => .authError "Authentication error: No token provided"
  | some token =>
    match verifyToken validTokens token with
    | none => .authError "Authentication error: Invalid token"
    | some userId =>
      if userId ∈ users then .session userId
      else .authError "Authentication error: User not found"

/-! ### C4 -/

/-- C4 counterexample: a token blacklisted by logout, but otherwise valid
and belonging to an existing user, is accepted by the connection
authentication and a session is created — the middleware never checks the
blacklist, contradicting the claim that a blacklisted credential is
rejected like a missing/invalid/expired one. -/
theorem blacklisted_token_accepted_counterexample :
    isTokenBlacklisted (blacklistToken [] "tok1") "tok1" = true ∧
    socketAuthMiddleware [("tok1", "u1")] ["u1"]
      (some "tok1") = SocketAuthResult.session "u1" := by
  decide

/-- C4 amended: the connection-authentication step rejects a missing token,
an invalid/expired token, and an unknown user with an `AuthError`, but it
does not consult the blacklist: a blacklisted yet otherwise valid token is
accepted and a session is created (blacklist checking happens only in the
HTTP `protect` middleware). -/
theorem socket_auth_rejects_invalid_but_not_blacklisted
    (validTokens : List (String × String)) (users : List String) (st : Store)
    (token uid : String) :
    socketAuthMiddleware validTokens users none =
      SocketAuthResult.authError "Authentication error: No token provided" ∧
    (verifyToken validTokens token = none →
      socketAuthMiddleware validTokens users (some token) =
        SocketAuthResult.authError "Authentication error: Invalid token") ∧
    (verifyToken validTokens token = some uid → uid ∉ users →
      socketAuthMiddleware validTokens users (some token) =
        SocketAuthResult.authError "Authentication error: User not found") ∧
    (isTokenBlacklisted st token = true →
      verifyToken validTokens token = some uid → uid ∈ users →
        socketAuthMiddleware validTokens users (some token) =
          SocketAuthResult.session uid) := by
  refine ⟨rfl, ?_, ?_, ?_⟩
  · intro hv
    simp [socketAuthMiddleware, hv]
  · intro hv hu
    simp [socketAuthMiddleware, hv, hu]
  · intro _ hv hu
    simp [socketAuthMiddleware, hv, hu]

/-- C4 amended witness: the three rejection paths and the
blacklisted-but-accepted path at concrete inputs. -/
theorem socket_auth_rejects_invalid_but_not_blacklisted_witness :
    socketAuthMiddleware [("tok1", "u1")] ["u1"] none =
      SocketAuthResult.authError "Authentication error: No token provided" ∧
    socketAuthMiddleware [("tok1", "u1")] ["u1"] (some "bad") =
      SocketAuthResult.authError "Authentication error: Invalid token" ∧
    socketAuthMiddleware [("tok2", "ghost")] ["u1"] (some "tok2") =
      SocketAuthResult.authError "Authentication error: User not found" ∧
    socketAuthMiddleware [("tok1", "u1")] ["u1"] (some "tok1") =
      SocketAuthResult.session "u1" := by
  have T := socket_auth_rejects_invalid_but_not_blacklisted
    [("tok1", "u1")] ["u1"] (blacklistToken [] "tok1") "tok1" "u1"
  have T2 := socket_auth_rejects_invalid_but_not_blacklisted
    [("tok1", "u1")] ["u1"] [] "bad" "u1"
  have T3 := socket_auth_rejects_invalid_but_not_blacklisted
    [("tok2", "ghost")] ["u1"] [] "tok2" "ghost"
  exact ⟨T.1, T2.2.1 (by decide), T3.2.2.1 (by decide) (by decide),
    T.2.2.2 (by decide) (by decide) (by decide)⟩

/-! ### The Room Topology Manager (Socket.IO rooms) -/

/-- Room membership across the cluster: room key → member socket ids. -/
abbrev RoomState := List (String × List String)

/-- The members of a room (an absent room is the empty room). -/
def roomMembers (rs : RoomState) (room : String) : List String :=
  (alookup rs room).getD []

/-- Drop a room's entry. -/
def rsRemoveRoom (rs : RoomState) (room : String) : RoomState :=
  rs.filter (fun p => p.1 ≠ room)

/-- `socket.join(room)` — set semantics: a duplicate join is a no-op. -/
def roomJoin (rs : RoomState) (room sid : String) : RoomState :=
  match alookup rs room with
  | none => (room, [sid]) :: rs
  | some ms => if sid ∈ ms then rs else (room, sid :: ms) :: rsRemoveRoom rs room

/-- `socket.leave(room)` — a no-op when not a member. -/
def roomLeave (rs : RoomState) (room sid : String) : RoomState :=
  match alookup rs room with
  | none => rs
  | some ms => (room, ms.filter (fun m => m ≠ sid)) :: rsRemoveRoom rs room

/-- Recipients of `io.to(room).emit(...)` — every member, sender included. -/
def ioToRecipients (rs : RoomState) (room : String) : List String :=
  roomMembers rs room

/-- Recipients of `socket.to(room).emit(...)` — every member except the
emitting socket. -/
def socketToRecipients (rs : RoomState) (sender room : String) : List String :=
  (roomMembers rs room).filter (fun m => m ≠ sender)

/-- The `typing:start` handler: `socket.to("channel:" + channelId)`
broadcast of `user:typing` — recipients exclude the sender. -/
def typingStartRecipients (rs : RoomState) (sid channelId : String) : List String :=
  socketToRecipients rs sid ("channel:" ++ channelId)

/-- The `sendMessage` handler: `io.to("channel:" + channelId)` broadcast of
`newMessage` — recipients include the sender when it is a member. -/
def sendMessageRecipients (rs : RoomState) (channelId : String) : List String :=
  ioToRecipients rs ("channel:" ++ channelId)

/-- The `joinRoom`/`leaveRoom` handlers derive the room key from the
declared type: prefix `channel:` when the type is `"channel"`, otherwise
`server:`. -/
def joinRoomKey (ty roomId : String) : String :=
  (if ty = "channel" then "channel:" else "server:") ++ roomId

/-- The `voice:join`/`voice:leave` handlers always use the `voice:` prefix. -/
def voiceJoinRoomKey (channelId : String) : String := "voice:" ++ channelId

/-- Socket.IO removes a disconnected socket from every room it had joined;
the repository's `disconnect` handler itself performs no room operation
(it only writes the user's offline status), as its comment notes. -/
def disconnectCleanup (rs : RoomState) (sid : String) : RoomState :=
  rs.map (fun p => (p.1, p.2.filter (fun m => m ≠ sid)))

/-- The complete disconnect transition: framework room cleanup plus the
handler (which leaves room state untouched). -/
def onDisconnect (rs : RoomState) (sid : String) : RoomState :=
  disconnectCleanup rs sid

/-! ### C7 -/

/-- C7: for a session `s` that is a member of the channel room, a
`typing:start` from `s` reaches exactly the other members — never `s` —
while a `sendMessage` from `s` delivers `newMessage` to every member
including `s`. -/
theorem typing_excludes_sender_message_includes_sender
    (rs : RoomState) (s c : String)
    (hmem : s ∈ roomMembers rs ("channel:" ++ c)) :
    s ∉ typingStartRecipients rs s c ∧
    (∀ m : String, m ∈ typingStartRecipients rs s c ↔
      (m ∈ roomMembers rs ("channel:" ++ c) ∧ m ≠ s)) ∧
    s ∈ sendMessageRecipients rs c ∧
    (∀ m : String, m ∈ roomMembers rs ("channel:" ++ c) →
      m ∈ sendMessageRecipients rs c) := by
  refine ⟨?_, ?_, hmem, fun m hm => hm⟩
  · intro hs
    simp [typingStartRecipients, socketToRecipients, List.mem_filter] at hs
  · intro m
    simp [typingStartRecipients, socketToRecipients, List.mem_filter]

/-- C7 witness: sessions `A` and `B` in `channel:abc`; `typing:start` from
`B` reaches `A` only; `sendMessage` from `B` reaches both. -/
theorem typing_excludes_sender_message_includes_sender_witness :
    "B" ∈ roomMembers [("channel:abc", ["A", "B"])] ("channel:" ++ "abc") ∧
    "B" ∉ typingStartRecipients [("channel:abc", ["A", "B"])] "B" "abc" ∧
    ("A" ∈ typingStartRecipients [("channel:abc", ["A", "B"])] "B" "abc" ↔
      ("A" ∈ roomMembers [("channel:abc", ["A", "B"])] ("channel:" ++ "abc") ∧ "A" ≠ "B")) ∧
    "B" ∈ sendMessageRecipients [("channel:abc", ["A", "B"])] "abc" := by
  have hmem : "B" ∈ roomMembers [("channel:abc", ["A", "B"])] ("channel:" ++ "abc") := by
    decide
  have T := typing_excludes_sender_message_includes_sender
    [("channel:abc", ["A", "B"])] "B" "abc" hmem
  exact ⟨hmem, T.1, T.2.1 "A", T.2.2.1⟩

/-! ### C8 -/

theorem append_str_ne (c d : Char) (lp lq : List Char) (p q a b : String)
    (hp : p.data = c :: lp) (hq : q.data = d :: lq) (hcd : c ≠ d) :
    p ++ a ≠ q ++ b := by
  intro h
  have hd := congrArg String.data h
  rw [strData_append, strData_append, hp, hq] at hd
  simp only [List.cons_append, List.cons.injEq] at hd
  exact hcd hd.1

/-- C8 counterexample: two joins with distinct declared types `"server"` and
`"voice"` and the same id derive the same room key — `joinRoom` maps every
non-`"channel"` type to the `server:` prefix, so the derivation is not
injective across types. -/
theorem roomKey_collision_counterexample :
    ("server" : String) ≠ "voice" ∧
    joinRoomKey "server" "abc" = joinRoomKey "voice" "abc" := by
  decide

/-- C8 amended: the `joinRoom` key derivation distinguishes only
`"channel"` from every other declared type: a `"channel"` join never
collides with a non-`"channel"` join, and a `voice:join` key never collides
with either `joinRoom` key; but two distinct non-`"channel"` types with the
same id collide on `server:{id}` (per the counterexample). -/
theorem roomKey_separates_channel_voice_server
    (t id1 id2 : String) (ht : t ≠ "channel") :
    joinRoomKey "channel" id1 ≠ joinRoomKey t id2 ∧
    voiceJoinRoomKey id1 ≠ joinRoomKey t id2 ∧
    voiceJoinRoomKey id1 ≠ joinRoomKey "channel" id2 := by
  have hch : joinRoomKey "channel" id1 = "channel:" ++ id1 := by
    simp [joinRoomKey]
  have hot : joinRoomKey t id2 = "server:" ++ id2 := by
    simp [joinRoomKey, ht]
  have hch2 : joinRoomKey "channel" id2 = "channel:" ++ id2 := by
    simp [joinRoomKey]
  refine ⟨?_, ?_, ?_⟩
  · rw [hch, hot]
    exact append_str_ne 'c' 's' _ _ _ _ _ _ rfl rfl (by decide)
  · rw [hot]
    exact append_str_ne 'v' 's' _ _ _ _ _ _ rfl rfl (by decide)
  · rw [hch2]
    exact append_str_ne 'v' 'c' _ _ _ _ _ _ rfl rfl (by decide)

/-- C8 amended witness: concrete keys for the three separations. -/
theorem roomKey_separates_channel_voice_server_witness :
    ("voice" : String) ≠ "channel" ∧
    joinRoomKey "channel" "abc" ≠ joinRoomKey "voice" "abc" ∧
    voiceJoinRoomKey "abc" ≠ joinRoomKey "voice" "abc" ∧
    voiceJoinRoomKey "abc" ≠ joinRoomKey "channel" "abc" := by
  have T := roomKey_separates_channel_voice_server "voice" "abc" "abc" (by decide)
  exact ⟨by decide, T.1, T.2.1, T.2.2⟩

/-! ### C9 -/

theorem alookup_map_snd {β γ : Type} (l : List (String × β)) (g : β → γ) (k : String) :
    alookup (l.map (fun p => (p.1, g p.2))) k = (alookup l k).map g := by
  induction l with
  | nil => rfl
  | cons p rest ih =>
    obtain ⟨k1, v1⟩ := p
    by_cases he : k1 = k
    · simp [alookup, he]
    · simp [alookup, he, ih]

/-- C9: after disconnect handling completes, the session belongs to zero
rooms: for every room whatsoever (its personal `user:{id}` room, channel,
server and voice rooms included), it is not a member, and neither an
`io.to` broadcast nor a `socket.to` broadcast to any room delivers to it. -/
theorem disconnect_removes_all_memberships (rs : RoomState) (sid : String) :
    ∀ room : String,
      sid ∉ roomMembers (onDisconnect rs sid) room ∧
      sid ∉ ioToRecipients (onDisconnect rs sid) room ∧
      ∀ sender : String, sid ∉ socketToRecipients (onDisconnect rs sid) sender room := by
  intro room
  have hmem : sid ∉ roomMembers (onDisconnect rs sid) room := by
    unfold onDisconnect disconnectCleanup roomMembers
    rw [alookup_map_snd]
    cases alookup rs room with
    | none => simp
    | some ms => simp [List.mem_filter]
  exact ⟨hmem, hmem, fun sender hs =>
    hmem (List.mem_of_mem_filter hs)⟩

/-! ### C10 -/

/-- An event emitted to a room by the module-level helpers. -/
structure Emission where
  room : String
  event : String
deriving DecidableEq, Repr

/-- `getIO()`: throws when the module-level `io` handle is still null,
returns the handle afterwards. -/
def getIO (io : Option Unit) : Except String Unit :=
  match io with
  | none => .error "Socket.IO not initialized. Call initSocket first."
  | some h => .ok h

/-- `emitToUser(userId, event, data)`: silent no-op while `io` is null,
otherwise emit to the `user:{id}` room. -/
def emitToUser (io : Option Unit) (userId event : String) : List Emission :=
  match io with
  | none => []
  | some _ => [⟨"user:" ++ userId, event⟩]

/-- `emitToServer(serverId, event, data)`. -/
def emitToServer (io : Option Unit) (serverId event : String) : List Emission :=
  match io with
  | none => []
  | some _ => [⟨"server:" ++ serverId, event⟩]

/-- `emitToChannel(channelId, event, data)`. -/
def emitToChannel (io : Option Unit) (channelId event : String) : List Emission :=
  match io with
  | none => []
  | some _ => [⟨"channel:" ++ channelId, event⟩]

/-- C10: before `initSocket` completes (`io` still null) every emit helper
returns silently with no emission and no error, while `getIO` throws; after
initialization each helper emits the event to the corresponding
`user:`/`server:`/`channel:` room. -/
theorem emit_helpers_silent_before_init (u s c e : String) :
    emitToUser none u e = [] ∧
    emitToServer none s e = [] ∧
    emitToChannel none c e = [] ∧
    getIO none = Except.error "Socket.IO not initialized. Call initSocket first." ∧
    emitToUser (some ()) u e = [⟨"user:" ++ u, e⟩] ∧
    emitToServer (some ()) s e = [⟨"server:" ++ s, e⟩] ∧
    emitToChannel (some ()) c e = [⟨"channel:" ++ c, e⟩] ∧
    getIO (some ()) = Except.ok () :=
  ⟨rfl, rfl, rfl, rfl, rfl, rfl, rfl, rfl⟩
